import Mathlib

/-!
Verification development for the color-picker utilities of the chisom-ui
registry (`registry/new-york/ui/color-picker-input.tsx`).

The embedding models JavaScript strings as Lean `String`s.  The case
conversions `toLowerCase` / `toUpperCase` are modelled on the ASCII range,
which is exact for all the strings handled by the color utilities (hash
signs, hexadecimal digits); JavaScript number arithmetic inside the
RGB→HSL conversion is modelled over `ℚ`, and `Math.round` as
`⌊x + 1/2⌋` (round half towards positive infinity), which is the
documented semantics of `Math.round`.
-/

namespace ChisomUI

/-- ASCII model of JavaScript `c.toLowerCase()` on a single character. -/
def toLowerChar (c : Char) : Char :=
  if 65 ≤ c.toNat ∧ c.toNat ≤ 90 then Char.ofNat (c.toNat + 32) else c

/-- ASCII model of JavaScript `c.toUpperCase()` on a single character. -/
def toUpperChar (c : Char) : Char :=
  if 97 ≤ c.toNat ∧ c.toNat ≤ 122 then Char.ofNat (c.toNat - 32) else c

/-- Model of JavaScript `s.toLowerCase()`. -/
def lowerStr (s : String) : String :=
  String.mk (s.data.map toLowerChar)

/-- Model of JavaScript `s.toUpperCase()`. -/
def upperStr (s : String) : String :=
  String.mk (s.data.map toUpperChar)

/-- The character class `[0-9a-fA-F]`, i.e. `[a-f\d]` under the `i` flag. -/
def isHexDigitB (c : Char) : Bool :=
  decide ((48 ≤ c.toNat ∧ c.toNat ≤ 57) ∨ (97 ≤ c.toNat ∧ c.toNat ≤ 102) ∨
    (65 ≤ c.toNat ∧ c.toNat ≤ 70))

/-- Numeric value of a hexadecimal digit character (as `parseInt(-, 16)`
reads one digit). -/
def hexVal (c : Char) : ℕ :=
  if c.toNat ≤ 57 then c.toNat - 48
  else if 97 ≤ c.toNat then c.toNat - 87
  else c.toNat - 55

/-- The lowercase hexadecimal digit character for `n < 16`, as produced by
JavaScript `Number.prototype.toString(16)`. -/
def hexDigitChar (n : ℕ) : Char :=
  if n < 10 then Char.ofNat (48 + n) else Char.ofNat (87 + n)

/-- Embedding of
`const isValidHex = (color) => /^#[0-9A-F]{6}$/i.test(color)`. -/
def isValidHex (s : String) : Bool :=
  match s.data with
  | '#' :: cs => cs.length == 6 && cs.all isHexDigitB
  | _ => false

/-- The `#?` part of the `hexToRgb` regular expression: an optional leading
hash sign is skipped. -/
def stripHash (cs : List Char) : List Char :=
  if cs.head? = some '#' then cs.tail else cs

/-- Embedding of `hexToRgb`: the regular expression
`/^#?([a-f\d]{2})([a-f\d]{2})([a-f\d]{2})$/i` followed by
`parseInt(-, 16)` on the three captured two-digit groups. -/
def hexToRgb (s : String) : Option (ℕ × ℕ × ℕ) :=
  match stripHash s.data with
  | [c1, c2, c3, c4, c5, c6] =>
    if isHexDigitB c1 && isHexDigitB c2 && isHexDigitB c3 && isHexDigitB c4 &&
        isHexDigitB c5 && isHexDigitB c6 then
      some (16 * hexVal c1 + hexVal c2, 16 * hexVal c3 + hexVal c4,
        16 * hexVal c5 + hexVal c6)
    else none
  | _ => none

/-- Model of JavaScript `x.toString(16)` for `x < 256` (the only use site
in `rgbToHex` feeds it 8-bit channel values). -/
def toHexStr (x : ℕ) : List Char :=
  if x < 16 then [hexDigitChar x] else [hexDigitChar (x / 16), hexDigitChar (x % 16)]

/-- Embedding of `rgbToHex`: each channel is rendered in base 16 and
left-padded with `"0"` to two digits, the results joined after `"#"`. -/
def rgbToHex (r g b : ℕ) : String :=
  String.mk ('#' :: ([r, g, b].map fun x =>
    let hex := toHexStr x
    if hex.length = 1 then '0' :: hex else hex).flatten)

/-- Embedding of `updateRecentColors` (the state-update function passed to
`setRecentColors`): invalid colors are ignored, any case-insensitive
duplicate of `color` is filtered out, `color` is prepended and the result
truncated by `slice(0, maxRecentColors)`. -/
def updateRecentColors (maxRecentColors : ℕ) (prev : List String)
    (color : String) : List String :=
  if isValidHex color = false then prev
  else
    let filtered := prev.filter fun c => lowerStr c != lowerStr color
    (color :: filtered).take maxRecentColors

/-- JavaScript `Math.round`: round half towards positive infinity. -/
def jsRound (x : ℚ) : ℤ := ⌊x + 1/2⌋

/-- JavaScript `Math.max` on two numbers. -/
def jsMax (a b : ℚ) : ℚ := if a ≤ b then b else a

/-- JavaScript `Math.min` on two numbers. -/
def jsMin (a b : ℚ) : ℚ := if a ≤ b then a else b

/-- Embedding of the body of `hexToHsl` after the successful `hexToRgb`
call: channels normalized to `[0,1]`, lightness from max and min,
saturation and hue only in the chromatic case (the `switch (max)`
statement matches `case r` first, then `case g`, else `case b`), each
result scaled and passed through `Math.round`. -/
def hslFromRgb (R G B : ℕ) : ℤ × ℤ × ℤ :=
  let r : ℚ := R / 255
  let g : ℚ := G / 255
  let b : ℚ := B / 255
  let maxv : ℚ := jsMax r (jsMax g b)
  let minv : ℚ := jsMin r (jsMin g b)
  let l : ℚ := (maxv + minv) / 2
  if maxv = minv then (0, 0, jsRound (l * 100))
  else
    let d : ℚ := maxv - minv
    let s : ℚ := if l > 1/2 then d / (2 - maxv - minv) else d / (maxv + minv)
    let h : ℚ :=
      if maxv = r then ((g - b) / d + (if g < b then (6 : ℚ) else 0)) / 6
      else if maxv = g then ((b - r) / d + 2) / 6
      else ((r - g) / d + 4) / 6
    (jsRound (h * 360), jsRound (s * 100), jsRound (l * 100))

/-- Embedding of `hexToHsl`: `null` is propagated from `hexToRgb`,
otherwise the conversion body runs on the three channels. -/
def hexToHsl (s : String) : Option (ℤ × ℤ × ℤ) :=
  match hexToRgb s with
  | none => none
  | some (R, G, B) => some (hslFromRgb R G B)

/-- The `format` prop: `"hex" | "rgb" | "hsl"`. -/
inductive ColorFormat
  | hex
  | rgb
  | hsl
deriving DecidableEq

/-- Embedding of `getFormattedColor`, reading the component's
`currentColor` and `format`: invalid colors are returned verbatim, valid
ones are rendered in the requested format. -/
def getFormattedColor (currentColor : String) (format : ColorFormat) : String :=
  if isValidHex currentColor = false then currentColor
  else
    match format with
    | .rgb =>
      match hexToRgb currentColor with
      | some (r, g, b) =>
        "rgb(" ++ toString r ++ ", " ++ toString g ++ ", " ++ toString b ++ ")"
      | none => currentColor
    | .hsl =>
      match hexToHsl currentColor with
      | some (h, s, l) =>
        "hsl(" ++ toString h ++ ", " ++ toString s ++ "%, " ++ toString l ++ "%)"
      | none => currentColor
    | .hex => currentColor

/-- The mutable state of one `ColorPickerInput` instance that the claims
talk about: the confirmed color, the raw text buffer, the recent-color
history, and the log of values passed to the `onChange` callback. -/
structure PickerState where
  currentColor : String
  inputValue : String
  recentColors : List String
  emitted : List String
deriving DecidableEq

/-- Embedding of `handleColorChange`: on a disabled component nothing
happens; otherwise the confirmed color and the buffer are set, the new
color is emitted through `onChange`, and the history is updated. -/
def handleColorChange (disabled : Bool) (maxRecentColors : ℕ)
    (st : PickerState) (newColor : String) : PickerState :=
  if disabled then st
  else
    { currentColor := newColor
      inputValue := newColor
      recentColors := updateRecentColors maxRecentColors st.recentColors newColor
      emitted := st.emitted ++ [newColor] }

/-- Embedding of `handleInputChange`: every keystroke stores the raw text
in the buffer; only when the text passes `isValidHex` is the uppercased
value confirmed via `handleColorChange`. -/
def handleInputChange (disabled : Bool) (maxRecentColors : ℕ)
    (st : PickerState) (text : String) : PickerState :=
  let st1 : PickerState := { st with inputValue := text }
  if isValidHex text = true then
    handleColorChange disabled maxRecentColors st1 (upperStr text)
  else st1

/-- The possible outcomes of `localStorage.getItem` in the load effect:
the read throws, the key is absent (`null`), or a string is stored. -/
inductive StorageRead
  | throws
  | missing
  | stored (s : String)

/-- A JavaScript value as produced by `JSON.parse`: the dynamic result is
not constrained to the `string[]` type the component declares for its
`recentColors` state. -/
inductive Json
  | null
  | bool (b : Bool)
  | num (q : ℚ)
  | str (s : String)
  | arr (elems : List Json)
  | obj (fields : List (String × Json))

/-- Whether a decoded JavaScript value actually is an array of strings —
the shape the component's `string[]` state declaration promises. -/
def Json.isStringArray : Json → Bool
  | .arr elems => elems.all fun j => match j with | .str _ => true | _ => false
  | _ => false

/-- Embedding of the recent-colors load effect
(`localStorage.getItem` + `JSON.parse` inside `try/catch`), keeping the
source's dynamic typing: `parse` abstracts `JSON.parse` (`none` standing
for a parse exception, which the `catch` swallows), and a successful
parse is handed to `setRecentColors` unchecked, whatever value it
produced.  The result is the `recentColors` state after the effect —
the initial empty array whenever no `setRecentColors` call happens. -/
def loadRecentColors (read : StorageRead)
    (parse : String → Option Json) : Json :=
  match read with
  | .throws => Json.arr []
  | .missing => Json.arr []
  | .stored s =>
    if s = "" then Json.arr []
    else
      match parse s with
      | none => Json.arr []
      | some v => v

/-- Two colors are distinct under the case-insensitive comparison used by
`updateRecentColors`. -/
def ciDistinct (a b : String) : Prop := lowerStr a ≠ lowerStr b

instance (a b : String) : Decidable (ciDistinct a b) :=
  inferInstanceAs (Decidable (lowerStr a ≠ lowerStr b))

theorem jsMax_eq_max (a b : ℚ) : jsMax a b = max a b := by
  rw [jsMax, max_def]

theorem jsMin_eq_min (a b : ℚ) : jsMin a b = min a b := by
  rw [jsMin, min_def]

example : isValidHex "#3B82F6" = true := by decide
example : isValidHex "#3b82f6" = true := by decide
example : isValidHex "red" = false := by decide
example : isValidHex "#FFF" = false := by decide
example : isValidHex "#GGHHII" = false := by decide
example : isValidHex "" = false := by decide
example : hexToRgb "#3B82F6" = some (59, 130, 246) := by decide
example : hexToRgb "3B82F6" = some (59, 130, 246) := by decide
example : hexToRgb "#FFF" = none := by decide
example : rgbToHex 59 130 246 = "#3b82f6" := by decide
example : rgbToHex 0 10 255 = "#000aff" := by decide
example : updateRecentColors 2 ["#AABBCC", "#DDEEFF"] "#ddeeff" =
    ["#ddeeff", "#AABBCC"] := by decide
example : updateRecentColors 2 ["#AABBCC", "#DDEEFF"] "red" =
    ["#AABBCC", "#DDEEFF"] := by decide

theorem jsRound_eq {x : ℚ} {n : ℤ} (h1 : (n : ℚ) ≤ x + 1/2) (h2 : x + 1/2 < n + 1) :
    jsRound x = n := by
  rw [jsRound, Int.floor_eq_iff]
  exact ⟨h1, h2⟩

theorem hslFromRgb_59_130_246 : hslFromRgb 59 130 246 = (217, 91, 60) := by
  rw [hslFromRgb]
  norm_num [jsMax, jsMin]
  exact ⟨jsRound_eq (by norm_num) (by norm_num), jsRound_eq (by norm_num) (by norm_num),
    jsRound_eq (by norm_num) (by norm_num)⟩

theorem hslFromRgb_0_0_0 : hslFromRgb 0 0 0 = (0, 0, 0) := by
  rw [hslFromRgb]
  norm_num [jsMax, jsMin]
  exact jsRound_eq (by norm_num) (by norm_num)

theorem hslFromRgb_255_0_1 : hslFromRgb 255 0 1 = (360, 100, 50) := by
  rw [hslFromRgb]
  norm_num [jsMax, jsMin]
  exact ⟨jsRound_eq (by norm_num) (by norm_num), jsRound_eq (by norm_num) (by norm_num),
    jsRound_eq (by norm_num) (by norm_num)⟩

theorem hexToHsl_3B82F6 : hexToHsl "#3B82F6" = some (217, 91, 60) := by
  have h1 : hexToRgb "#3B82F6" = some (59, 130, 246) := by decide
  simp only [hexToHsl, h1, hslFromRgb_59_130_246]

theorem hexToHsl_000000 : hexToHsl "#000000" = some (0, 0, 0) := by
  have h1 : hexToRgb "#000000" = some (0, 0, 0) := by decide
  simp only [hexToHsl, h1, hslFromRgb_0_0_0]

theorem hexToHsl_FF0001 : hexToHsl "#FF0001" = some (360, 100, 50) := by
  have h1 : hexToRgb "#FF0001" = some (255, 0, 1) := by decide
  simp only [hexToHsl, h1, hslFromRgb_255_0_1]

theorem getFormattedColor_3B82F6_hsl :
    getFormattedColor "#3B82F6" .hsl = "hsl(217, 91%, 60%)" := by
  unfold getFormattedColor
  rw [hexToHsl_3B82F6]
  decide

theorem getFormattedColor_000000_hsl :
    getFormattedColor "#000000" .hsl = "hsl(0, 0%, 0%)" := by
  unfold getFormattedColor
  rw [hexToHsl_000000]
  decide

example : getFormattedColor "#3B82F6" .rgb = "rgb(59, 130, 246)" := by decide
example : getFormattedColor "tomato" .rgb = "tomato" := by decide

/-! ### Character-level facts -/

theorem toNat_ofNat_valid {n : ℕ} (h : n.isValidChar) : (Char.ofNat n).toNat = n := by
  unfold Char.ofNat
  rw [dif_pos h]
  rfl

theorem isValidChar_of_lt {n : ℕ} (h : n < 55296) : n.isValidChar := Or.inl h

theorem isHexDigitB_iff {c : Char} : isHexDigitB c = true ↔
    (48 ≤ c.toNat ∧ c.toNat ≤ 57) ∨ (97 ≤ c.toNat ∧ c.toNat ≤ 102) ∨
    (65 ≤ c.toNat ∧ c.toNat ≤ 70) := by
  rw [isHexDigitB, decide_eq_true_iff]

theorem hexVal_lt_16 {c : Char} (h : isHexDigitB c = true) : hexVal c < 16 := by
  rw [isHexDigitB_iff] at h
  rw [hexVal]
  split_ifs <;> omega

theorem hexDigitChar_hexVal {c : Char} (h : isHexDigitB c = true) :
    hexDigitChar (hexVal c) = toLowerChar c := by
  rw [isHexDigitB_iff] at h
  rcases h with h | h | h
  · have hv : hexVal c = c.toNat - 48 := by rw [hexVal, if_pos (by omega)]
    rw [hv, hexDigitChar, if_pos (by omega), toLowerChar, if_neg (by omega),
      show 48 + (c.toNat - 48) = c.toNat by omega, Char.ofNat_toNat]
  · have hv : hexVal c = c.toNat - 87 := by
      rw [hexVal, if_neg (by omega), if_pos (by omega)]
    rw [hv, hexDigitChar, if_neg (by omega), toLowerChar, if_neg (by omega),
      show 87 + (c.toNat - 87) = c.toNat by omega, Char.ofNat_toNat]
  · have hv : hexVal c = c.toNat - 55 := by
      rw [hexVal, if_neg (by omega), if_neg (by omega)]
    rw [hv, hexDigitChar, if_neg (by omega), toLowerChar, if_pos (by omega),
      show 87 + (c.toNat - 55) = c.toNat + 32 by omega]

theorem toLowerChar_hexDigitChar {k : ℕ} (h : k < 16) :
    toLowerChar (hexDigitChar k) = hexDigitChar k := by
  interval_cases k <;> decide

theorem toLowerChar_hash : toLowerChar '#' = '#' := by decide

theorem toUpperChar_hash : toUpperChar '#' = '#' := by decide

theorem isHexDigitB_toUpperChar {c : Char} (h : isHexDigitB c = true) :
    isHexDigitB (toUpperChar c) = true := by
  rw [isHexDigitB_iff] at h
  rw [toUpperChar]
  rcases h with h | h | h
  · rw [if_neg (by omega), isHexDigitB_iff]
    omega
  · rw [if_pos (by omega), isHexDigitB_iff,
      toNat_ofNat_valid (isValidChar_of_lt (by omega))]
    omega
  · rw [if_neg (by omega), isHexDigitB_iff]
    omega

/-! ### Shape of valid hex strings -/

theorem exists_six_of_length {α : Type} {l : List α} (h : l.length = 6) :
    ∃ a b c d e f, l = [a, b, c, d, e, f] := by
  rcases l with _ | ⟨a, l⟩; · simp at h
  rcases l with _ | ⟨b, l⟩; · simp at h
  rcases l with _ | ⟨c, l⟩; · simp at h
  rcases l with _ | ⟨d, l⟩; · simp at h
  rcases l with _ | ⟨e, l⟩; · simp at h
  rcases l with _ | ⟨f, l⟩; · simp at h
  rcases l with _ | ⟨g, l⟩
  · exact ⟨a, b, c, d, e, f, rfl⟩
  · simp [List.length_cons] at h

theorem isValidHex_iff {s : String} : isValidHex s = true ↔
    ∃ cs, s.data = '#' :: cs ∧ cs.length = 6 ∧ ∀ c ∈ cs, isHexDigitB c = true := by
  constructor
  · intro h
    rw [isValidHex] at h
    split at h
    · next cs heq =>
      simp only [Bool.and_eq_true, beq_iff_eq, List.all_eq_true] at h
      exact ⟨cs, heq, h.1, h.2⟩
    · exact absurd h (by simp)
  · rintro ⟨cs, hd, hlen, hall⟩
    rw [isValidHex, hd]
    simp only [Bool.and_eq_true, beq_iff_eq, List.all_eq_true]
    exact ⟨hlen, hall⟩

theorem hash_not_hexDigit : isHexDigitB '#' = false := by decide

theorem stripHash_hash (cs : List Char) : stripHash ('#' :: cs) = cs := by
  simp [stripHash]

theorem stripHash_of_ne {c : Char} (cs : List Char) (h : c ≠ '#') :
    stripHash (c :: cs) = c :: cs := by
  simp [stripHash, h]

theorem hexToRgb_eq_of_shape {s : String} {c1 c2 c3 c4 c5 c6 : Char}
    (hd : stripHash s.data = [c1, c2, c3, c4, c5, c6])
    (hall : ∀ c ∈ [c1, c2, c3, c4, c5, c6], isHexDigitB c = true) :
    hexToRgb s = some (16 * hexVal c1 + hexVal c2, 16 * hexVal c3 + hexVal c4,
      16 * hexVal c5 + hexVal c6) := by
  simp only [List.mem_cons, List.not_mem_nil, or_false, forall_eq_or_imp, forall_eq] at hall
  obtain ⟨h1, h2, h3, h4, h5, h6⟩ := hall
  rw [hexToRgb, hd]
  simp [h1, h2, h3, h4, h5, h6]

theorem hexToRgb_isSome_iff {s : String} : (hexToRgb s).isSome = true ↔
    ∃ pre cs, s.data = pre ++ cs ∧ (pre = [] ∨ pre = ['#']) ∧ cs.length = 6 ∧
      ∀ c ∈ cs, isHexDigitB c = true := by
  constructor
  · intro h
    rw [hexToRgb] at h
    split at h
    · next c1 c2 c3 c4 c5 c6 heq =>
      split at h
      · next hhex =>
        simp only [Bool.and_eq_true] at hhex
        obtain ⟨⟨⟨⟨⟨e1, e2⟩, e3⟩, e4⟩, e5⟩, e6⟩ := hhex
        have hall : ∀ c ∈ [c1, c2, c3, c4, c5, c6], isHexDigitB c = true := by
          simp [e1, e2, e3, e4, e5, e6]
        rcases hsd : s.data with _ | ⟨c, rest⟩
        · rw [hsd] at heq
          simp [stripHash] at heq
        · rw [hsd] at heq
          by_cases hc : c = '#'
          · subst hc
            rw [stripHash_hash] at heq
            exact ⟨['#'], rest, by simp [hsd], Or.inr rfl, by rw [heq]; rfl,
              by rw [heq]; exact hall⟩
          · rw [stripHash_of_ne rest hc] at heq
            exact ⟨[], c :: rest, by simp [hsd], Or.inl rfl, by rw [heq]; rfl,
              by rw [heq]; exact hall⟩
      · exact absurd h (by simp)
    · exact absurd h (by simp)
  · rintro ⟨pre, cs, hd, hpre, hlen, hall⟩
    obtain ⟨c1, c2, c3, c4, c5, c6, rfl⟩ := exists_six_of_length hlen
    have hstrip : stripHash s.data = [c1, c2, c3, c4, c5, c6] := by
      rcases hpre with rfl | rfl
      · rw [hd, List.nil_append]
        have hc1 : c1 ≠ '#' := by
          intro e
          have := hall c1 (by simp)
          rw [e, hash_not_hexDigit] at this
          exact absurd this (by simp)
        exact stripHash_of_ne _ hc1
      · rw [hd]
        rfl
    rw [hexToRgb_eq_of_shape hstrip hall]
    rfl

theorem hexToRgb_channels_le {s : String} {r g b : ℕ}
    (h : hexToRgb s = some (r, g, b)) : r ≤ 255 ∧ g ≤ 255 ∧ b ≤ 255 := by
  rw [hexToRgb] at h
  split at h
  · next c1 c2 c3 c4 c5 c6 heq =>
    split at h
    · next hhex =>
      simp only [Bool.and_eq_true] at hhex
      obtain ⟨⟨⟨⟨⟨e1, e2⟩, e3⟩, e4⟩, e5⟩, e6⟩ := hhex
      have := hexVal_lt_16 e1
      have := hexVal_lt_16 e2
      have := hexVal_lt_16 e3
      have := hexVal_lt_16 e4
      have := hexVal_lt_16 e5
      have := hexVal_lt_16 e6
      rw [Option.some.injEq, Prod.mk.injEq, Prod.mk.injEq] at h
      omega
    · exact absurd h (by simp)
  · exact absurd h (by simp)

theorem isValidHex_hexToRgb {s : String} (h : isValidHex s = true) :
    (hexToRgb s).isSome = true := by
  rw [isValidHex_iff] at h
  obtain ⟨cs, hd, hlen, hall⟩ := h
  rw [hexToRgb_isSome_iff]
  exact ⟨['#'], cs, by rw [hd]; rfl, Or.inr rfl, hlen, hall⟩

/-! ### Range of the HSL conversion -/

theorem jsRound_bound360 {x : ℚ} (h0 : 0 ≤ x) (h1 : x ≤ 1) :
    0 ≤ jsRound (x * 360) ∧ jsRound (x * 360) ≤ 360 := by
  rw [jsRound]
  refine ⟨Int.floor_nonneg.mpr (by linarith), ?_⟩
  have h2 : ⌊x * 360 + 1/2⌋ < (361 : ℤ) := Int.floor_lt.mpr (by push_cast; linarith)
  omega

theorem jsRound_bound100 {x : ℚ} (h0 : 0 ≤ x) (h1 : x ≤ 1) :
    0 ≤ jsRound (x * 100) ∧ jsRound (x * 100) ≤ 100 := by
  rw [jsRound]
  refine ⟨Int.floor_nonneg.mpr (by linarith), ?_⟩
  have h2 : ⌊x * 100 + 1/2⌋ < (101 : ℤ) := Int.floor_lt.mpr (by push_cast; linarith)
  omega

theorem div_bounds_aux {u v m M : ℚ} (hm : m < M) (hu1 : m ≤ u) (hu2 : u ≤ M)
    (hv1 : m ≤ v) (hv2 : v ≤ M) : -1 ≤ (u - v) / (M - m) ∧ (u - v) / (M - m) ≤ 1 := by
  have hd : 0 < M - m := by linarith
  constructor
  · rw [le_div_iff₀ hd]
    linarith
  · rw [div_le_one hd]
    linarith

theorem jsMax_self (a : ℚ) : jsMax a a = a := by
  rw [jsMax, if_pos le_rfl]

theorem jsMin_self (a : ℚ) : jsMin a a = a := by
  rw [jsMin, if_pos le_rfl]

theorem hslFromRgb_achromatic (x : ℕ) : ∃ L, hslFromRgb x x x = (0, 0, L) := by
  refine ⟨jsRound (((x : ℚ)/255 + (x : ℚ)/255) / 2 * 100), ?_⟩
  simp only [hslFromRgb, jsMax_self, jsMin_self]
  simp

theorem sdiv_bound_hi {m M : ℚ} (hM1 : M ≤ 1) (hlt : m < M) :
    0 ≤ (M - m) / (2 - M - m) ∧ (M - m) / (2 - M - m) ≤ 1 := by
  have hden : 0 < 2 - M - m := by linarith
  exact ⟨div_nonneg (by linarith) (by linarith), (div_le_one hden).mpr (by linarith)⟩

theorem sdiv_bound_lo {m M : ℚ} (hm0 : 0 ≤ m) (hlt : m < M) :
    0 ≤ (M - m) / (M + m) ∧ (M - m) / (M + m) ≤ 1 := by
  have hden : 0 < M + m := by linarith
  exact ⟨div_nonneg (by linarith) (by linarith), (div_le_one hden).mpr (by linarith)⟩

theorem hdiv_bound_wrap {g b m M : ℚ} (hlt : m < M) (hg1 : m ≤ g) (hg2 : g ≤ M)
    (hb1 : m ≤ b) (hb2 : b ≤ M) (hgb : g < b) :
    0 ≤ ((g - b) / (M - m) + 6) / 6 ∧ ((g - b) / (M - m) + 6) / 6 ≤ 1 := by
  obtain ⟨hq1, hq2⟩ := div_bounds_aux hlt hg1 hg2 hb1 hb2
  have hq0 : (g - b) / (M - m) < 0 := div_neg_of_neg_of_pos (by linarith) (by linarith)
  exact ⟨by linarith, by linarith⟩

theorem hdiv_bound_base {g b m M : ℚ} (hlt : m < M) (hg1 : m ≤ g) (hg2 : g ≤ M)
    (hb1 : m ≤ b) (hb2 : b ≤ M) (hgb : b ≤ g) :
    0 ≤ ((g - b) / (M - m) + 0) / 6 ∧ ((g - b) / (M - m) + 0) / 6 ≤ 1 := by
  obtain ⟨hq1, hq2⟩ := div_bounds_aux hlt hg1 hg2 hb1 hb2
  have hq0 : 0 ≤ (g - b) / (M - m) := div_nonneg (by linarith) (by linarith)
  exact ⟨by linarith, by linarith⟩

theorem hdiv_bound_mid {u v m M e : ℚ} (hlt : m < M) (hu1 : m ≤ u) (hu2 : u ≤ M)
    (hv1 : m ≤ v) (hv2 : v ≤ M) (he1 : 1 ≤ e) (he5 : e ≤ 5) :
    0 ≤ ((u - v) / (M - m) + e) / 6 ∧ ((u - v) / (M - m) + e) / 6 ≤ 1 := by
  obtain ⟨hq1, hq2⟩ := div_bounds_aux hlt hu1 hu2 hv1 hv2
  exact ⟨by linarith, by linarith⟩

theorem hslFromRgb_bounds {R G B : ℕ} (hR : R ≤ 255) (hG : G ≤ 255) (hB : B ≤ 255)
    {h s l : ℤ} (heq : hslFromRgb R G B = (h, s, l)) :
    0 ≤ h ∧ h ≤ 360 ∧ 0 ≤ s ∧ s ≤ 100 ∧ 0 ≤ l ∧ l ≤ 100 := by
  simp only [hslFromRgb, jsMax_eq_max, jsMin_eq_min] at heq
  set r : ℚ := (R : ℚ)/255 with hrdef
  set g : ℚ := (G : ℚ)/255 with hgdef
  set b : ℚ := (B : ℚ)/255 with hbdef
  set M : ℚ := max r (max g b) with hMdef
  set m : ℚ := min r (min g b) with hmdef
  have hr0 : 0 ≤ r := by positivity
  have hg0 : 0 ≤ g := by positivity
  have hb0 : 0 ≤ b := by positivity
  have hr1 : r ≤ 1 := by
    rw [hrdef, div_le_one (by norm_num)]
    exact_mod_cast hR
  have hg1 : g ≤ 1 := by
    rw [hgdef, div_le_one (by norm_num)]
    exact_mod_cast hG
  have hb1 : b ≤ 1 := by
    rw [hbdef, div_le_one (by norm_num)]
    exact_mod_cast hB
  have hM1 : M ≤ 1 := max_le hr1 (max_le hg1 hb1)
  have hm0 : 0 ≤ m := le_min hr0 (le_min hg0 hb0)
  have hmM : m ≤ M := le_trans (min_le_left _ _) (le_max_left _ _)
  have hrM : r ≤ M := le_max_left _ _
  have hgM : g ≤ M := le_trans (le_max_left _ _) (le_max_right _ _)
  have hbM : b ≤ M := le_trans (le_max_right _ _) (le_max_right _ _)
  have hmr : m ≤ r := min_le_left _ _
  have hmg : m ≤ g := le_trans (min_le_right _ _) (min_le_left _ _)
  have hmb : m ≤ b := le_trans (min_le_right _ _) (min_le_right _ _)
  have hl0 : 0 ≤ (M + m) / 2 := by linarith
  have hl1 : (M + m) / 2 ≤ 1 := by linarith
  have hlbd := jsRound_bound100 hl0 hl1
  split_ifs at heq with hMm hMr hglb hgt1 hgt2 hMg hgt3 hgt4 <;>
    (rw [Prod.mk.injEq, Prod.mk.injEq] at heq
     obtain ⟨e1, e2, e3⟩ := heq
     subst e1; subst e2; subst e3)
  · omega
  · have hlt : m < M := lt_of_le_of_ne hmM (fun e => hMm e.symm)
    have hh := hdiv_bound_wrap hlt hmg hgM hmb hbM hglb
    have hs := sdiv_bound_hi hM1 hlt
    exact ⟨(jsRound_bound360 hh.1 hh.2).1, (jsRound_bound360 hh.1 hh.2).2,
      (jsRound_bound100 hs.1 hs.2).1, (jsRound_bound100 hs.1 hs.2).2, hlbd.1, hlbd.2⟩
  · have hlt : m < M := lt_of_le_of_ne hmM (fun e => hMm e.symm)
    have hh := hdiv_bound_wrap hlt hmg hgM hmb hbM hglb
    have hs := sdiv_bound_lo hm0 hlt
    exact ⟨(jsRound_bound360 hh.1 hh.2).1, (jsRound_bound360 hh.1 hh.2).2,
      (jsRound_bound100 hs.1 hs.2).1, (jsRound_bound100 hs.1 hs.2).2, hlbd.1, hlbd.2⟩
  · have hlt : m < M := lt_of_le_of_ne hmM (fun e => hMm e.symm)
    have hh := hdiv_bound_base hlt hmg hgM hmb hbM (not_lt.mp hglb)
    have hs := sdiv_bound_hi hM1 hlt
    exact ⟨(jsRound_bound360 hh.1 hh.2).1, (jsRound_bound360 hh.1 hh.2).2,
      (jsRound_bound100 hs.1 hs.2).1, (jsRound_bound100 hs.1 hs.2).2, hlbd.1, hlbd.2⟩
  · have hlt : m < M := lt_of_le_of_ne hmM (fun e => hMm e.symm)
    have hh := hdiv_bound_base hlt hmg hgM hmb hbM (not_lt.mp hglb)
    have hs := sdiv_bound_lo hm0 hlt
    exact ⟨(jsRound_bound360 hh.1 hh.2).1, (jsRound_bound360 hh.1 hh.2).2,
      (jsRound_bound100 hs.1 hs.2).1, (jsRound_bound100 hs.1 hs.2).2, hlbd.1, hlbd.2⟩
  · have hlt : m < M := lt_of_le_of_ne hmM (fun e => hMm e.symm)
    have hh := hdiv_bound_mid (e := 2) hlt hmb hbM hmr hrM (by norm_num) (by norm_num)
    have hs := sdiv_bound_hi hM1 hlt
    exact ⟨(jsRound_bound360 hh.1 hh.2).1, (jsRound_bound360 hh.1 hh.2).2,
      (jsRound_bound100 hs.1 hs.2).1, (jsRound_bound100 hs.1 hs.2).2, hlbd.1, hlbd.2⟩
  · have hlt : m < M := lt_of_le_of_ne hmM (fun e => hMm e.symm)
    have hh := hdiv_bound_mid (e := 2) hlt hmb hbM hmr hrM (by norm_num) (by norm_num)
    have hs := sdiv_bound_lo hm0 hlt
    exact ⟨(jsRound_bound360 hh.1 hh.2).1, (jsRound_bound360 hh.1 hh.2).2,
      (jsRound_bound100 hs.1 hs.2).1, (jsRound_bound100 hs.1 hs.2).2, hlbd.1, hlbd.2⟩
  · have hlt : m < M := lt_of_le_of_ne hmM (fun e => hMm e.symm)
    have hh := hdiv_bound_mid (e := 4) hlt hmr hrM hmg hgM (by norm_num) (by norm_num)
    have hs := sdiv_bound_hi hM1 hlt
    exact ⟨(jsRound_bound360 hh.1 hh.2).1, (jsRound_bound360 hh.1 hh.2).2,
      (jsRound_bound100 hs.1 hs.2).1, (jsRound_bound100 hs.1 hs.2).2, hlbd.1, hlbd.2⟩
  · have hlt : m < M := lt_of_le_of_ne hmM (fun e => hMm e.symm)
    have hh := hdiv_bound_mid (e := 4) hlt hmr hrM hmg hgM (by norm_num) (by norm_num)
    have hs := sdiv_bound_lo hm0 hlt
    exact ⟨(jsRound_bound360 hh.1 hh.2).1, (jsRound_bound360 hh.1 hh.2).2,
      (jsRound_bound100 hs.1 hs.2).1, (jsRound_bound100 hs.1 hs.2).2, hlbd.1, hlbd.2⟩

/-! ### Recent-color history -/

theorem updateRecentColors_valid (maxRecent : ℕ) (l : List String) {c : String}
    (hc : isValidHex c = true) :
    updateRecentColors maxRecent l c =
      (c :: l.filter fun x => lowerStr x != lowerStr c).take maxRecent := by
  rw [updateRecentColors, if_neg (by simp [hc])]

theorem record_head_unique (maxRecent : ℕ) (l : List String) {c : String}
    (hc : isValidHex c = true) (hmax : 1 ≤ maxRecent) :
    (updateRecentColors maxRecent l c).head? = some c
    ∧ ((updateRecentColors maxRecent l c).filter
        fun x => lowerStr x == lowerStr c).length = 1
    ∧ (updateRecentColors maxRecent l c).length ≤ maxRecent := by
  rw [updateRecentColors_valid maxRecent l hc]
  obtain ⟨k, rfl⟩ : ∃ k, maxRecent = k + 1 := ⟨maxRecent - 1, by omega⟩
  rw [List.take_succ_cons]
  refine ⟨rfl, ?_, ?_⟩
  · have hz : (((l.filter fun x => lowerStr x != lowerStr c).take k).filter
        fun x => lowerStr x == lowerStr c) = [] := by
      rw [List.filter_eq_nil_iff]
      intro x hx
      have hx' : x ∈ l.filter fun x => lowerStr x != lowerStr c :=
        List.take_subset k _ hx
      have hne := List.of_mem_filter hx'
      rw [bne_iff_ne] at hne
      simp [hne]
    rw [List.filter_cons, if_pos (by simp), hz]
    rfl
  · simp only [List.length_cons, List.length_take]
    omega

theorem record_pairwise (maxRecent : ℕ) (l : List String) (c : String)
    (hpw : l.Pairwise ciDistinct) :
    (updateRecentColors maxRecent l c).Pairwise ciDistinct := by
  rw [updateRecentColors]
  split_ifs with hv
  · exact hpw
  · refine List.Pairwise.sublist (List.take_sublist _ _) ?_
    rw [List.pairwise_cons]
    refine ⟨fun x hx => ?_, hpw.filter _⟩
    have := List.of_mem_filter hx
    rw [bne_iff_ne] at this
    exact fun e => this (e.symm)

theorem record_length_le (maxRecent : ℕ) (l : List String) (c : String)
    (hlen : l.length ≤ maxRecent) :
    (updateRecentColors maxRecent l c).length ≤ maxRecent := by
  rw [updateRecentColors]
  split_ifs with hv
  · exact hlen
  · exact List.length_take_le _ _

theorem foldl_record_shape (maxRecent : ℕ) (cs : List String) :
    ∀ l₀ : List String, cs ≠ [] → (∀ x ∈ cs, isValidHex x = true) →
    cs.Pairwise ciDistinct →
    ∃ rest, cs.foldl (updateRecentColors maxRecent) l₀ =
      (cs.reverse ++ rest).take maxRecent := by
  induction cs using List.reverseRecOn with
  | nil => exact fun l₀ hne _ _ => absurd rfl hne
  | append_singleton cs c ih =>
    intro l₀ _ hvalid hpw
    have hcval : isValidHex c = true := hvalid c (by simp)
    rcases eq_or_ne cs [] with rfl | hne
    · refine ⟨l₀.filter fun x => lowerStr x != lowerStr c, ?_⟩
      simp only [List.nil_append, List.foldl_cons, List.foldl_nil,
        List.reverse_cons, List.reverse_nil]
      rw [updateRecentColors_valid maxRecent l₀ hcval]
      rfl
    · have hvalid' : ∀ x ∈ cs, isValidHex x = true :=
        fun x hx => hvalid x (List.mem_append_left _ hx)
      have hpw' : cs.Pairwise ciDistinct :=
        hpw.sublist (List.sublist_append_left _ _)
      have hcs_c : ∀ x ∈ cs, lowerStr x ≠ lowerStr c := by
        intro x hx
        exact (List.pairwise_append.mp hpw).2.2 x hx c (by simp)
      obtain ⟨rest, hrest⟩ := ih l₀ hne hvalid' hpw'
      rw [List.foldl_append, List.foldl_cons, List.foldl_nil, hrest,
        updateRecentColors_valid maxRecent _ hcval]
      have hpass : ∀ x ∈ cs.reverse, (lowerStr x != lowerStr c) = true := by
        intro x hx
        rw [bne_iff_ne]
        exact hcs_c x (List.mem_reverse.mp hx)
      rcases le_or_lt maxRecent cs.length with hle | hgt
      · have htk : (cs.reverse ++ rest).take maxRecent = cs.reverse.take maxRecent :=
          List.take_append_of_le_length (by simpa using hle)
        have hfl : (cs.reverse.take maxRecent).filter
            (fun x => lowerStr x != lowerStr c) = cs.reverse.take maxRecent :=
          List.filter_eq_self.mpr fun x hx => hpass x (List.take_subset _ _ hx)
        refine ⟨[], ?_⟩
        rw [htk, hfl, List.reverse_append, List.reverse_singleton, List.append_nil]
        rcases Nat.eq_zero_or_pos maxRecent with rfl | hpos
        · simp
        · obtain ⟨k, rfl⟩ : ∃ k, maxRecent = k + 1 := ⟨maxRecent - 1, by omega⟩
          rw [List.take_succ_cons, List.take_take, min_eq_left (by omega),
            List.singleton_append, List.take_succ_cons]
      · have htk : (cs.reverse ++ rest).take maxRecent =
            cs.reverse ++ rest.take (maxRecent - cs.reverse.length) := by
          rw [List.take_append_eq_append_take,
            List.take_of_length_le (by simpa using le_of_lt hgt)]
        refine ⟨(rest.take (maxRecent - cs.reverse.length)).filter
          (fun x => lowerStr x != lowerStr c), ?_⟩
        rw [htk, List.filter_append,
          List.filter_eq_self.mpr hpass, List.reverse_append,
          List.reverse_singleton, List.singleton_append, List.cons_append]

theorem isValidHex_upperStr {s : String} (h : isValidHex s = true) :
    isValidHex (upperStr s) = true := by
  rw [isValidHex_iff] at h ⊢
  obtain ⟨cs, hd, hlen, hall⟩ := h
  refine ⟨cs.map toUpperChar, ?_, by simp [hlen], ?_⟩
  · simp [upperStr, hd, toUpperChar_hash]
  · intro c hc
    obtain ⟨c0, hc0, rfl⟩ := List.mem_map.mp hc
    exact isHexDigitB_toUpperChar (hall c0 hc0)

/-! ### Claims -/

/-- C1, counterexample: `updateRecentColors` prepends the recorded color
exactly as passed, without normalizing it to uppercase — recording the
valid lowercase color `"#ff0000"` into an empty list stores `"#ff0000"`,
not `"#FF0000"` as the claim requires. -/
theorem C1_counterexample :
    isValidHex "#ff0000" = true
    ∧ updateRecentColors 1 [] "#ff0000" = ["#ff0000"]
    ∧ updateRecentColors 1 [] "#ff0000" ≠ ["#FF0000"] :=
  ⟨by decide, by decide, by decide⟩

/-- C1, amended: for every list, bound `max ≥ 1` and valid color `c`,
`record(list, c, max)` removes any case-insensitive duplicate of `c`,
prepends `c` as given (uppercase normalization happens in the callers,
not in `updateRecentColors`), and truncates to `max` entries; and
recording more than `max` case-insensitively distinct valid colors leaves
exactly `max` entries, the `max` most recent in most-recent-first
order. -/
theorem C1_record_behavior (maxRecent : ℕ) (l : List String) (c : String)
    (hmax : 1 ≤ maxRecent) (hc : isValidHex c = true) :
    updateRecentColors maxRecent l c =
      (c :: l.filter fun x => lowerStr x != lowerStr c).take maxRecent
    ∧ ∀ cs : List String, (∀ x ∈ cs, isValidHex x = true) →
        cs.Pairwise ciDistinct → maxRecent < cs.length →
        cs.foldl (updateRecentColors maxRecent) l = cs.reverse.take maxRecent
        ∧ (cs.foldl (updateRecentColors maxRecent) l).length = maxRecent := by
  refine ⟨updateRecentColors_valid maxRecent l hc, ?_⟩
  intro cs hvalid hpw hlen
  have hne : cs ≠ [] := by
    intro e
    rw [e] at hlen
    simp at hlen
  obtain ⟨rest, hrest⟩ := foldl_record_shape maxRecent cs l hne hvalid hpw
  have htake : (cs.reverse ++ rest).take maxRecent = cs.reverse.take maxRecent :=
    List.take_append_of_le_length (by simpa using le_of_lt hlen)
  refine ⟨by rw [hrest, htake], ?_⟩
  rw [hrest, htake, List.length_take, List.length_reverse]
  omega

/-- C1, witness: recording the four distinct valid colors of the spec's
preset palette into an empty list with `max = 3` keeps exactly the three
most recent ones, most-recent-first. -/
theorem C1_witness :
    1 ≤ 3 ∧ isValidHex "#FF5733" = true
    ∧ ["#FF5733", "#33FF57", "#3357FF", "#F033FF"].foldl
        (updateRecentColors 3) [] = ["#F033FF", "#3357FF", "#33FF57"]
    ∧ (["#FF5733", "#33FF57", "#3357FF", "#F033FF"].foldl
        (updateRecentColors 3) []).length = 3 := by
  have h := (C1_record_behavior 3 [] "#FF5733" (by omega) (by decide)).2
    ["#FF5733", "#33FF57", "#3357FF", "#F033FF"]
    (by decide) (by decide) (by decide)
  exact ⟨by omega, by decide, by rw [h.1]; decide, h.2⟩

/-- C2: for every list, every bound, and every string rejected by the hex
validity predicate, `record` is a no-op returning the list unchanged. -/
theorem C2_invalid_noop (l : List String) (maxRecent : ℕ) (s : String)
    (h : isValidHex s = false) : updateRecentColors maxRecent l s = l := by
  rw [updateRecentColors, if_pos h]

/-- C2, witness: the spec's invalid examples are all rejected and leave a
concrete list untouched. -/
theorem C2_witness :
    isValidHex "red" = false ∧ isValidHex "#FFF" = false
    ∧ isValidHex "#GGHHII" = false ∧ isValidHex "" = false
    ∧ updateRecentColors 6 ["#AABBCC"] "red" = ["#AABBCC"]
    ∧ updateRecentColors 6 ["#AABBCC"] "" = ["#AABBCC"] :=
  ⟨by decide, by decide, by decide, by decide,
    C2_invalid_noop ["#AABBCC"] 6 "red" (by decide),
    C2_invalid_noop ["#AABBCC"] 6 "" (by decide)⟩

/-- C3: `record` preserves the `RecentColorList` invariant (pairwise
case-insensitive distinctness and length ≤ max) for every input string,
and recording `c₁`, then `c₂`, then `c₁` again (valid, case-insensitively
distinct colors, `max ≥ 1`) yields a list headed by `c₁`, containing
exactly one entry case-insensitively equal to `c₁`, of length ≤ max. -/
theorem C3_invariant :
    (∀ (maxRecent : ℕ) (l : List String) (c : String),
      l.Pairwise ciDistinct → l.length ≤ maxRecent →
      (updateRecentColors maxRecent l c).Pairwise ciDistinct
      ∧ (updateRecentColors maxRecent l c).length ≤ maxRecent)
    ∧ (∀ (maxRecent : ℕ) (l : List String) (c₁ c₂ : String),
      isValidHex c₁ = true → isValidHex c₂ = true →
      lowerStr c₁ ≠ lowerStr c₂ → 1 ≤ maxRecent →
      (updateRecentColors maxRecent (updateRecentColors maxRecent
        (updateRecentColors maxRecent l c₁) c₂) c₁).head? = some c₁
      ∧ ((updateRecentColors maxRecent (updateRecentColors maxRecent
        (updateRecentColors maxRecent l c₁) c₂) c₁).filter
          fun x => lowerStr x == lowerStr c₁).length = 1
      ∧ (updateRecentColors maxRecent (updateRecentColors maxRecent
        (updateRecentColors maxRecent l c₁) c₂) c₁).length ≤ maxRecent) := by
  constructor
  · intro maxRecent l c hpw hlen
    exact ⟨record_pairwise maxRecent l c hpw, record_length_le maxRecent l c hlen⟩
  · intro maxRecent l c₁ c₂ h1 h2 _ hmax
    exact record_head_unique maxRecent _ h1 hmax

/-- C3, witness: the invariant survives recording `"#0000ff"` on a
concrete two-element history with `max = 2`, and the `c₁, c₂, c₁`
scenario at `"#ff0000"`, `"#00ff00"`. -/
theorem C3_witness :
    (updateRecentColors 2 ["#AABBCC", "#DDEEFF"] "#0000ff").Pairwise ciDistinct
    ∧ (updateRecentColors 2 ["#AABBCC", "#DDEEFF"] "#0000ff").length ≤ 2
    ∧ (updateRecentColors 2 (updateRecentColors 2
        (updateRecentColors 2 [] "#ff0000") "#00ff00") "#ff0000").head? =
          some "#ff0000" := by
  have h1 := C3_invariant.1 2 ["#AABBCC", "#DDEEFF"] "#0000ff"
    (by decide) (by decide)
  have h2 := C3_invariant.2 2 [] "#ff0000" "#00ff00" (by decide) (by decide)
    (by decide) (by omega)
  exact ⟨h1.1, h1.2, h2.1⟩

/-- C4: `isValidHex` accepts a string iff it is exactly `#` followed by 6
hexadecimal digits; `hexToRgb` accepts exactly `#RRGGBB` or `RRGGBB`
(case-insensitive), returns three 8-bit channel values, and yields `null`
on every other shape — short form, named colors, alpha channel, and
malformed digits included. -/
theorem C4_validity_and_parse :
    (∀ s : String, isValidHex s = true ↔
      ∃ cs, s.data = '#' :: cs ∧ cs.length = 6 ∧ ∀ c ∈ cs, isHexDigitB c = true)
    ∧ (∀ s : String, (hexToRgb s).isSome = true ↔
      ∃ pre cs, s.data = pre ++ cs ∧ (pre = [] ∨ pre = ['#']) ∧ cs.length = 6 ∧
        ∀ c ∈ cs, isHexDigitB c = true)
    ∧ (∀ (s : String) (r g b : ℕ), hexToRgb s = some (r, g, b) →
        r ≤ 255 ∧ g ≤ 255 ∧ b ≤ 255)
    ∧ hexToRgb "#FFF" = none ∧ hexToRgb "red" = none ∧ hexToRgb "#GGHHII" = none
    ∧ hexToRgb "#AABBCCDD" = none ∧ hexToRgb "" = none :=
  ⟨fun _ => isValidHex_iff, fun _ => hexToRgb_isSome_iff,
    fun _ _ _ _ h => hexToRgb_channels_le h,
    by decide, by decide, by decide, by decide, by decide⟩

/-- C4, witness: `"#3B82F6"` is accepted by the validity predicate via its
shape, `"3b82f6"` is accepted by the parser without the hash, and the
parsed channels of `"#3B82F6"` are within 8 bits. -/
theorem C4_witness :
    isValidHex "#3B82F6" = true
    ∧ (hexToRgb "3b82f6").isSome = true
    ∧ 59 ≤ 255 ∧ 130 ≤ 255 ∧ 246 ≤ 255 :=
  ⟨(C4_validity_and_parse.1 "#3B82F6").mpr
      ⟨['3', 'B', '8', '2', 'F', '6'], by decide, by decide, by decide⟩,
    (C4_validity_and_parse.2.1 "3b82f6").mpr
      ⟨[], ['3', 'b', '8', '2', 'f', '6'], by decide, Or.inl rfl, by decide, by decide⟩,
    (C4_validity_and_parse.2.2.1 "#3B82F6" 59 130 246 (by decide)).1,
    (C4_validity_and_parse.2.2.1 "#3B82F6" 59 130 246 (by decide)).2.1,
    (C4_validity_and_parse.2.2.1 "#3B82F6" 59 130 246 (by decide)).2.2⟩

/-- C5, counterexample: the valid color `"#FF0001"` converts to hue 360 —
`h·360 = 359.7647…` and `Math.round` rounds it up — so the claimed hue
range 0–359 is violated. -/
theorem C5_counterexample :
    isValidHex "#FF0001" = true
    ∧ hexToHsl "#FF0001" = some (360, 100, 50)
    ∧ ¬((360 : ℤ) ≤ 359) :=
  ⟨by decide, hexToHsl_FF0001, by decide⟩

/-- C5, amended: for every valid 6-digit hex color the HSL conversion
returns integers with hue in 0–360 (the hue wheel wrap can round up to
360), saturation and lightness in 0–100; and on achromatic inputs
(equal channels, hence equal maximal and minimal normalized channels)
hue and saturation are both 0. -/
theorem C5_hsl_ranges (s : String) (hv : isValidHex s = true) :
    (∃ h sat l, hexToHsl s = some (h, sat, l) ∧ 0 ≤ h ∧ h ≤ 360
      ∧ 0 ≤ sat ∧ sat ≤ 100 ∧ 0 ≤ l ∧ l ≤ 100)
    ∧ ∀ x : ℕ, hexToRgb s = some (x, x, x) → ∃ l, hexToHsl s = some (0, 0, l) := by
  constructor
  · have hsome := isValidHex_hexToRgb hv
    rw [Option.isSome_iff_exists] at hsome
    obtain ⟨⟨r, g, b⟩, hr⟩ := hsome
    obtain ⟨hr255, hg255, hb255⟩ := hexToRgb_channels_le hr
    rcases e : hslFromRgb r g b with ⟨hh, hs, hl⟩
    have hb := hslFromRgb_bounds hr255 hg255 hb255 e
    exact ⟨hh, hs, hl, by simp only [hexToHsl, hr, e], hb.1, hb.2.1, hb.2.2.1,
      hb.2.2.2.1, hb.2.2.2.2.1, hb.2.2.2.2.2⟩
  · intro x hx
    obtain ⟨L, hL⟩ := hslFromRgb_achromatic x
    exact ⟨L, by simp only [hexToHsl, hx, hL]⟩

/-- C5, witness: the amended ranges hold at `"#FF0001"`, and `"#808080"`
is achromatic with hue and saturation 0. -/
theorem C5_witness :
    isValidHex "#FF0001" = true
    ∧ (∃ h sat l, hexToHsl "#FF0001" = some (h, sat, l) ∧ 0 ≤ h ∧ h ≤ 360
        ∧ 0 ≤ sat ∧ sat ≤ 100 ∧ 0 ≤ l ∧ l ≤ 100)
    ∧ (∃ l, hexToHsl "#808080" = some (0, 0, l)) :=
  ⟨by decide, (C5_hsl_ranges "#FF0001" (by decide)).1,
    (C5_hsl_ranges "#808080" (by decide)).2 128 (by decide)⟩

/-- C6: on `"#3B82F6"` the display formatter produces exactly
`"rgb(59, 130, 246)"` and `"hsl(217, 91%, 60%)"`, and on the achromatic
`"#000000"` it produces `"hsl(0, 0%, 0%)"`. -/
theorem C6_concrete_formats :
    getFormattedColor "#3B82F6" ColorFormat.rgb = "rgb(59, 130, 246)"
    ∧ getFormattedColor "#3B82F6" ColorFormat.hsl = "hsl(217, 91%, 60%)"
    ∧ getFormattedColor "#000000" ColorFormat.hsl = "hsl(0, 0%, 0%)" :=
  ⟨by decide, getFormattedColor_3B82F6_hsl, getFormattedColor_000000_hsl⟩

/-- C7: a stored color that passes hex validation is returned unchanged
for the `hex` format, as `rgb(r, g, b)` for `rgb` and as `hsl(h, s%, l%)`
for `hsl`; a stored color that fails validation is returned unchanged for
every requested format, with no default substituted. -/
theorem C7_format_dispatch (color : String) (format : ColorFormat) :
    (isValidHex color = false → getFormattedColor color format = color)
    ∧ (isValidHex color = true →
      getFormattedColor color ColorFormat.hex = color
      ∧ (∃ r g b, hexToRgb color = some (r, g, b) ∧
          getFormattedColor color ColorFormat.rgb =
            "rgb(" ++ toString r ++ ", " ++ toString g ++ ", " ++ toString b ++ ")")
      ∧ (∃ h s l, hexToHsl color = some (h, s, l) ∧
          getFormattedColor color ColorFormat.hsl =
            "hsl(" ++ toString h ++ ", " ++ toString s ++ "%, " ++ toString l ++ "%)")) := by
  constructor
  · intro hinv
    unfold getFormattedColor
    rw [if_pos hinv]
  · intro hv
    have hsome := isValidHex_hexToRgb hv
    rw [Option.isSome_iff_exists] at hsome
    obtain ⟨⟨r, g, b⟩, hr⟩ := hsome
    rcases e : hslFromRgb r g b with ⟨hh, hs, hl⟩
    have hhsl : hexToHsl color = some (hh, hs, hl) := by
      simp only [hexToHsl, hr, e]
    refine ⟨?_, ⟨r, g, b, hr, ?_⟩, ⟨hh, hs, hl, hhsl, ?_⟩⟩
    · unfold getFormattedColor
      rw [if_neg (by simp [hv])]
    · unfold getFormattedColor
      rw [if_neg (by simp [hv])]
      simp only [hr]
    · unfold getFormattedColor
      rw [if_neg (by simp [hv])]
      simp only [hhsl]

/-- C7, witness: the invalid `"red"` is returned unchanged under the
`rgb` format, and the valid `"#3B82F6"` unchanged under `hex`. -/
theorem C7_witness :
    getFormattedColor "red" ColorFormat.rgb = "red"
    ∧ getFormattedColor "#3B82F6" ColorFormat.hex = "#3B82F6" :=
  ⟨(C7_format_dispatch "red" ColorFormat.rgb).1 (by decide),
    ((C7_format_dispatch "#3B82F6" ColorFormat.hex).2 (by decide)).1⟩

/-- C8: partly holds, partly refuted by the code. A storage read that
throws, an absent key, and content on which `JSON.parse` throws all
leave the initial empty array.  But content that parses successfully to
a non-list is stored into the `string[]` state unchecked: with stored
`"42"` (which `JSON.parse` evaluates to the number 42) the resulting
`recentColors` state is the number 42 — not the empty list, and not an
array of strings at all — contradicting "load() always returns a list"
and "malformed content yields the empty list". -/
theorem C8_load_dynamic (parse : String → Option Json) :
    (loadRecentColors StorageRead.throws parse = Json.arr []
    ∧ loadRecentColors StorageRead.missing parse = Json.arr []
    ∧ ∀ s : String, parse s = none →
        loadRecentColors (StorageRead.stored s) parse = Json.arr [])
    ∧ (parse "42" = some (Json.num 42) →
        loadRecentColors (StorageRead.stored "42") parse = Json.num 42
        ∧ (Json.num 42).isStringArray = false
        ∧ Json.num 42 ≠ Json.arr []) := by
  constructor
  · refine ⟨rfl, rfl, fun s hp => ?_⟩
    by_cases hs : s = ""
    · simp [loadRecentColors, hs]
    · simp [loadRecentColors, hs, hp]
  · intro hp
    refine ⟨?_, rfl, fun e => Json.noConfusion e⟩
    rw [loadRecentColors]
    rw [if_neg (by decide), hp]

/-- C8, witness: under a parser that throws everywhere except on `"42"`,
where it yields the number 42 as `JSON.parse` does, garbage loads the
empty array while stored `"42"` loads the number 42 into the state. -/
theorem C8_witness :
    loadRecentColors (StorageRead.stored "no j")
      (fun s => if s = "42" then some (Json.num 42) else none) = Json.arr []
    ∧ loadRecentColors (StorageRead.stored "42")
      (fun s => if s = "42" then some (Json.num 42) else none) = Json.num 42 :=
  ⟨(C8_load_dynamic _).1.2.2 "no j" (by simp),
    ((C8_load_dynamic _).2 (by simp)).1⟩

/-- C9: on an enabled component, a keystroke whose buffer text is not a
complete valid hex changes only the input buffer; a keystroke completing
a valid hex sets the confirmed color and the buffer to the uppercase
normalization, emits it through `onChange`, and puts it at position 0 of
the history. -/
theorem C9_keystroke (st : PickerState) (text : String) (maxRecent : ℕ) :
    (isValidHex text = false →
      handleInputChange false maxRecent st text = { st with inputValue := text })
    ∧ (isValidHex text = true → 1 ≤ maxRecent →
      (handleInputChange false maxRecent st text).currentColor = upperStr text
      ∧ (handleInputChange false maxRecent st text).inputValue = upperStr text
      ∧ (handleInputChange false maxRecent st text).emitted =
          st.emitted ++ [upperStr text]
      ∧ (handleInputChange false maxRecent st text).recentColors.head? =
          some (upperStr text)) := by
  constructor
  · intro hinv
    rw [handleInputChange, if_neg (by simp [hinv])]
  · intro hv hmax
    rw [handleInputChange, if_pos hv, handleColorChange, if_neg (by simp)]
    refine ⟨rfl, rfl, rfl, ?_⟩
    exact (record_head_unique maxRecent st.recentColors
      (isValidHex_upperStr hv) hmax).1

/-- C9, witness: the spec's scenario — typing `"#3b82f"` only updates the
buffer; typing `"#3b82f6"` confirms `"#3B82F6"` and puts it at history
position 0. -/
theorem C9_witness :
    isValidHex "#3b82f" = false ∧ isValidHex "#3b82f6" = true
    ∧ handleInputChange false 6 ⟨"#3B82F6", "#3b82", [], []⟩ "#3b82f" =
        ⟨"#3B82F6", "#3b82f", [], []⟩
    ∧ (handleInputChange false 6 ⟨"#3B82F6", "#3b82f", [], []⟩ "#3b82f6").currentColor =
        upperStr "#3b82f6"
    ∧ (handleInputChange false 6
        ⟨"#3B82F6", "#3b82f", [], []⟩ "#3b82f6").recentColors.head? =
        some (upperStr "#3b82f6")
    ∧ upperStr "#3b82f6" = "#3B82F6" :=
  ⟨by decide, by decide,
    (C9_keystroke ⟨"#3B82F6", "#3b82", [], []⟩ "#3b82f" 6).1 (by decide),
    ((C9_keystroke ⟨"#3B82F6", "#3b82f", [], []⟩ "#3b82f6" 6).2 (by decide) (by omega)).1,
    ((C9_keystroke ⟨"#3B82F6", "#3b82f", [], []⟩ "#3b82f6" 6).2 (by decide)
      (by omega)).2.2.2,
    by decide⟩

theorem toLowerChar_toLowerChar (c : Char) :
    toLowerChar (toLowerChar c) = toLowerChar c := by
  by_cases h : 65 ≤ c.toNat ∧ c.toNat ≤ 90
  · have e : toLowerChar c = Char.ofNat (c.toNat + 32) := by rw [toLowerChar, if_pos h]
    rw [e, toLowerChar, toNat_ofNat_valid (isValidChar_of_lt (by omega)),
      if_neg (by omega)]
  · have e : toLowerChar c = c := by rw [toLowerChar, if_neg h]
    rw [e]
    exact e

theorem padHex_eq {a b : Char} (ha : isHexDigitB a = true) (hb : isHexDigitB b = true) :
    (if (toHexStr (16 * hexVal a + hexVal b)).length = 1
      then '0' :: toHexStr (16 * hexVal a + hexVal b)
      else toHexStr (16 * hexVal a + hexVal b)) =
    [hexDigitChar (hexVal a), hexDigitChar (hexVal b)] := by
  have ha16 := hexVal_lt_16 ha
  have hb16 := hexVal_lt_16 hb
  by_cases h0 : hexVal a = 0
  · have hlt : 16 * hexVal a + hexVal b < 16 := by omega
    rw [toHexStr, if_pos hlt]
    rw [show (16 * hexVal a + hexVal b) = hexVal b by omega, h0]
    rw [if_pos (by rfl)]
    rw [show hexDigitChar 0 = '0' from by decide]
  · have hge : ¬(16 * hexVal a + hexVal b < 16) := by omega
    rw [toHexStr, if_neg hge,
      show (16 * hexVal a + hexVal b) / 16 = hexVal a by omega,
      show (16 * hexVal a + hexVal b) % 16 = hexVal b by omega]
    rw [if_neg (by simp)]

/-- C10: for every `#`-prefixed 6-digit hex string, `hexToRgb` succeeds
and `rgbToHex` on the resulting channels reproduces the original string
up to case. -/
theorem C10_roundtrip (s : String) (cs : List Char) (hd : s.data = '#' :: cs)
    (hlen : cs.length = 6) (hall : ∀ c ∈ cs, isHexDigitB c = true) :
    ∃ r g b, hexToRgb s = some (r, g, b) ∧ lowerStr (rgbToHex r g b) = lowerStr s := by
  obtain ⟨c1, c2, c3, c4, c5, c6, rfl⟩ := exists_six_of_length hlen
  have hstrip : stripHash s.data = [c1, c2, c3, c4, c5, c6] := by
    rw [hd, stripHash_hash]
  simp only [List.mem_cons, List.not_mem_nil, or_false, forall_eq_or_imp,
    forall_eq] at hall
  obtain ⟨h1, h2, h3, h4, h5, h6⟩ := hall
  refine ⟨_, _, _, hexToRgb_eq_of_shape hstrip (by simp [h1, h2, h3, h4, h5, h6]), ?_⟩
  simp only [rgbToHex, lowerStr, hd, List.map_cons, List.map_nil, List.flatten,
    padHex_eq h1 h2, padHex_eq h3 h4, padHex_eq h5 h6, List.append_nil,
    List.cons_append, List.nil_append, toLowerChar_hash,
    toLowerChar_hexDigitChar (hexVal_lt_16 h1), toLowerChar_hexDigitChar (hexVal_lt_16 h3),
    toLowerChar_hexDigitChar (hexVal_lt_16 h5),
    hexDigitChar_hexVal h1, hexDigitChar_hexVal h2, hexDigitChar_hexVal h3,
    hexDigitChar_hexVal h4, hexDigitChar_hexVal h5, hexDigitChar_hexVal h6,
    toLowerChar_toLowerChar]

/-- C10, witness: the mixed-case `"#3b82F6"` parses and round-trips to
itself up to case. -/
theorem C10_witness :
    "#3b82F6".data = '#' :: ['3', 'b', '8', '2', 'F', '6']
    ∧ (∃ r g b, hexToRgb "#3b82F6" = some (r, g, b)
        ∧ lowerStr (rgbToHex r g b) = lowerStr "#3b82F6") :=
  ⟨by decide, C10_roundtrip "#3b82F6" ['3', 'b', '8', '2', 'F', '6']
    (by decide) (by decide) (by decide)⟩

end ChisomUI
